import Mathlib

/-!
Verification development for a multi-language source-code analyzer
(`functions.py`).  The Python analyzer is embedded over a small Python
AST type (the constructs `_analyze_ast` distinguishes); the JavaScript
and Java analyzers are embedded together with an executable backtracking
matcher for the exact regular expressions the source uses; the top-level
tool `MultiLanguageCodeAnalyzer._run` is embedded with the file read and
the Python `ast.parse` call supplied as oracles (`Except`-valued inputs),
since those are the only effectful steps.  All definitions follow the
source line by line; machine floats (1.5, 2.0, 0.5 and their products,
all exactly representable) are modelled by `Rat`.
-/

set_option maxRecDepth 200000

/-! ## Data model (dataclasses `FunctionInfo`, `ClassInfo`, `FileAnalysis`) -/

structure FunctionInfo where
  name : String
  docstring : Option String
  parameters : List String
  return_type : Option String
  visibility : String
  complexity : String
  line_number : Nat
  annotations : List String
deriving DecidableEq

structure ClassInfo where
  name : String
  docstring : Option String
  methods : List FunctionInfo
  attributes : List String
  inheritance : List String
  interfaces : List String
  visibility : String
  is_abstract : Bool
  line_number : Nat
deriving DecidableEq

structure FileAnalysis where
  filepath : String
  language : String
  imports : List String
  functions : List FunctionInfo
  classes : List ClassInfo
  dependencies : List String
  main_purpose : String
  complexity_score : Rat
  package_namespace : Option String
  entry_point : Option String
deriving DecidableEq

/-! ## String helpers

Python string operations are modelled on `List Char` (with `String.data`
at the boundary) so that everything reduces inside the kernel.
-/

/-- Whitespace characters removed by Python's `str.strip()` (ASCII part). -/
def pyIsSpace (c : Char) : Bool :=
  c = ' ' || c = '\t' || c = '\n' || c = '\r' || c = '\x0b' || c = '\x0c'

/-- Python `str.strip()`. -/
def pyStrip (l : List Char) : List Char :=
  ((l.dropWhile pyIsSpace).reverse.dropWhile pyIsSpace).reverse

/-- Python `str.split(c)` for a single-character separator. -/
def splitChar (c : Char) : List Char → List (List Char)
  | [] => [[]]
  | x :: xs =>
    match splitChar c xs with
    | [] => [[]]
    | h :: t => if x = c then [] :: h :: t else (x :: h) :: t

/-- Python `pat in hay` (substring containment). -/
def listContains (hay pat : List Char) : Bool :=
  match hay with
  | [] => pat.isEmpty
  | _ :: t => pat.isPrefixOf hay || listContains t pat

def asStr (l : List Char) : String := String.mk l

/-- Python `str.startswith`. -/
def strStarts (s pat : String) : Bool := pat.data.isPrefixOf s.data

/-- Python `str.endswith`. -/
def strEnds (s pat : String) : Bool := pat.data.reverse.isPrefixOf s.data.reverse

/-- Python `str.lower()` (ASCII part, which is all the registry uses). -/
def lowerChar (c : Char) : Char :=
  if 'A' ≤ c ∧ c ≤ 'Z' then Char.ofNat (c.toNat + 32) else c

def lowerS (s : String) : String := asStr (s.data.map lowerChar)

/-! ## Python AST

The statement forms `PythonAnalyzer._analyze_ast` distinguishes:
`ast.Import`, `ast.ImportFrom`, `ast.FunctionDef`, `ast.ClassDef`, a
string-constant expression statement (what `ast.get_docstring` looks at)
and an opaque "any other statement".  A base-class expression is either
an `ast.Name` or some other expression (`PythonAnalyzer._extract_class_info`
keeps only the former).
-/

inductive PyBase where
  | nm (s : String) : PyBase
  | exprOther : PyBase
deriving DecidableEq

inductive PyStmt where
  | importStmt (names : List String) : PyStmt
  | importFrom (module : Option String) (names : List String) : PyStmt
  | functionDef (name : String) (args : List String) (returns : Option String)
      (body : List PyStmt) (lineno : Nat) : PyStmt
  | classDef (name : String) (bases : List PyBase) (body : List PyStmt) (lineno : Nat) : PyStmt
  | exprConstStr (s : String) : PyStmt
  | other : PyStmt

mutual

def stmtSize : PyStmt → Nat
  | .importStmt _ => 1
  | .importFrom _ _ => 1
  | .functionDef _ _ _ b _ => 1 + stmtsSize b
  | .classDef _ _ b _ => 1 + stmtsSize b
  | .exprConstStr _ => 1
  | .other => 1

def stmtsSize : List PyStmt → Nat
  | [] => 0
  | s :: t => stmtSize s + stmtsSize t

end

mutual

def beqStmt : PyStmt → PyStmt → Bool
  | .importStmt a, .importStmt b => decide (a = b)
  | .importFrom m1 n1, .importFrom m2 n2 => decide (m1 = m2) && decide (n1 = n2)
  | .functionDef n1 a1 r1 b1 l1, .functionDef n2 a2 r2 b2 l2 =>
      decide (n1 = n2) && decide (a1 = a2) && decide (r1 = r2) && beqStmts b1 b2 && decide (l1 = l2)
  | .classDef n1 bs1 b1 l1, .classDef n2 bs2 b2 l2 =>
      decide (n1 = n2) && decide (bs1 = bs2) && beqStmts b1 b2 && decide (l1 = l2)
  | .exprConstStr a, .exprConstStr b => decide (a = b)
  | .other, .other => true
  | _, _ => false

def beqStmts : List PyStmt → List PyStmt → Bool
  | [], [] => true
  | s :: t, u :: v => beqStmt s u && beqStmts t v
  | _, _ => false

end

mutual

theorem beqStmt_refl : ∀ s : PyStmt, beqStmt s s = true
  | .importStmt _ => by simp [beqStmt]
  | .importFrom _ _ => by simp [beqStmt]
  | .functionDef _ _ _ b _ => by simp [beqStmt, beqStmts_refl b]
  | .classDef _ _ b _ => by simp [beqStmt, beqStmts_refl b]
  | .exprConstStr _ => by simp [beqStmt]
  | .other => rfl

theorem beqStmts_refl : ∀ l : List PyStmt, beqStmts l l = true
  | [] => rfl
  | s :: t => by simp [beqStmts, beqStmt_refl s, beqStmts_refl t]

end

mutual

theorem beqStmt_sound : ∀ s u : PyStmt, beqStmt s u = true → s = u
  | .importStmt _, .importStmt _, h => by
    simp [beqStmt] at h; simp [h]
  | .importStmt _, .importFrom _ _, h => by simp [beqStmt] at h
  | .importStmt _, .functionDef _ _ _ _ _, h => by simp [beqStmt] at h
  | .importStmt _, .classDef _ _ _ _, h => by simp [beqStmt] at h
  | .importStmt _, .exprConstStr _, h => by simp [beqStmt] at h
  | .importStmt _, .other, h => by simp [beqStmt] at h
  | .importFrom _ _, .importStmt _, h => by simp [beqStmt] at h
  | .importFrom _ _, .importFrom _ _, h => by
    simp [beqStmt] at h; simp [h.1, h.2]
  | .importFrom _ _, .functionDef _ _ _ _ _, h => by simp [beqStmt] at h
  | .importFrom _ _, .classDef _ _ _ _, h => by simp [beqStmt] at h
  | .importFrom _ _, .exprConstStr _, h => by simp [beqStmt] at h
  | .importFrom _ _, .other, h => by simp [beqStmt] at h
  | .functionDef _ _ _ _ _, .importStmt _, h => by simp [beqStmt] at h
  | .functionDef _ _ _ _ _, .importFrom _ _, h => by simp [beqStmt] at h
  | .functionDef _ _ _ b1 _, .functionDef _ _ _ b2 _, h => by
    simp [beqStmt] at h
    obtain ⟨⟨⟨⟨h1, h2⟩, h3⟩, h4⟩, h5⟩ := h
    have := beqStmts_sound b1 b2 h4
    simp [h1, h2, h3, h5, this]
  | .functionDef _ _ _ _ _, .classDef _ _ _ _, h => by simp [beqStmt] at h
  | .functionDef _ _ _ _ _, .exprConstStr _, h => by simp [beqStmt] at h
  | .functionDef _ _ _ _ _, .other, h => by simp [beqStmt] at h
  | .classDef _ _ _ _, .importStmt _, h => by simp [beqStmt] at h
  | .classDef _ _ _ _, .importFrom _ _, h => by simp [beqStmt] at h
  | .classDef _ _ _ _, .functionDef _ _ _ _ _, h => by simp [beqStmt] at h
  | .classDef _ bs1 b1 _, .classDef _ bs2 b2 _, h => by
    simp [beqStmt] at h
    obtain ⟨⟨⟨h1, h2⟩, h3⟩, h4⟩ := h
    have := beqStmts_sound b1 b2 h3
    simp [h1, h2, h4, this]
  | .classDef _ _ _ _, .exprConstStr _, h => by simp [beqStmt] at h
  | .classDef _ _ _ _, .other, h => by simp [beqStmt] at h
  | .exprConstStr _, .importStmt _, h => by simp [beqStmt] at h
  | .exprConstStr _, .importFrom _ _, h => by simp [beqStmt] at h
  | .exprConstStr _, .functionDef _ _ _ _ _, h => by simp [beqStmt] at h
  | .exprConstStr _, .classDef _ _ _ _, h => by simp [beqStmt] at h
  | .exprConstStr _, .exprConstStr _, h => by
    simp [beqStmt] at h; simp [h]
  | .exprConstStr _, .other, h => by simp [beqStmt] at h
  | .other, .importStmt _, h => by simp [beqStmt] at h
  | .other, .importFrom _ _, h => by simp [beqStmt] at h
  | .other, .functionDef _ _ _ _ _, h => by simp [beqStmt] at h
  | .other, .classDef _ _ _ _, h => by simp [beqStmt] at h
  | .other, .exprConstStr _, h => by simp [beqStmt] at h
  | .other, .other, _ => rfl

theorem beqStmts_sound : ∀ l1 l2 : List PyStmt, beqStmts l1 l2 = true → l1 = l2
  | [], [], _ => rfl
  | [], _ :: _, h => by simp [beqStmts] at h
  | _ :: _, [], h => by simp [beqStmts] at h
  | s :: t, u :: v, h => by
    simp [beqStmts] at h
    have h1 := beqStmt_sound s u h.1
    have h2 := beqStmts_sound t v h.2
    simp [h1, h2]

end

theorem beqStmt_iff (s u : PyStmt) : beqStmt s u = true ↔ s = u :=
  ⟨beqStmt_sound s u, fun h => h ▸ beqStmt_refl s⟩

instance : DecidableEq PyStmt := fun s u =>
  decidable_of_iff (beqStmt s u = true) (beqStmt_iff s u)

/-! ## The `ast.walk` traversal

`ast.walk` performs a breadth-first traversal.  The statement-level
children relevant to the analyzer are the bodies of function and class
definitions.  The traversal is implemented level by level with explicit
fuel (`stmtsSize` over-approximates the number of levels), which keeps
the definition kernel-computable.
-/

def children : PyStmt → List PyStmt
  | .functionDef _ _ _ b _ => b
  | .classDef _ _ b _ => b
  | _ => []

def childrenAll (l : List PyStmt) : List PyStmt := l.flatMap children

def walkAux : Nat → List PyStmt → List PyStmt
  | 0, _ => []
  | _ + 1, [] => []
  | f + 1, s :: t => (s :: t) ++ walkAux f (childrenAll (s :: t))

/-- Breadth-first enumeration of all statement nodes, as `ast.walk` yields
them (the `Module` node itself matches none of the analyzer's branches and
is omitted). -/
def walkL (m : List PyStmt) : List PyStmt := walkAux (stmtsSize m) m

/-! ## `PythonAnalyzer` -/

/-- The `ast.get_docstring` model: the leading string-constant expression
statement of a body, if any. -/
def get_docstring : List PyStmt → Option String
  | .exprConstStr s :: _ => some s
  | _ => none

/-- Source: `PythonAnalyzer._extract_function_info` (only ever called on a
`FunctionDef` node; other constructors take a dummy branch). -/
def extract_function_info : PyStmt → FunctionInfo
  | .functionDef nm args ret bd ln =>
    { name := nm
      docstring := get_docstring bd
      parameters := args
      return_type := ret
      visibility := if strStarts nm "_" then "private" else "public"
      complexity := "Média"
      line_number := ln
      annotations := [] }
  | _ =>
    { name := "", docstring := none, parameters := [], return_type := none
      visibility := "", complexity := "", line_number := 0, annotations := [] }

/-- Source: `PythonAnalyzer._extract_class_info` (only ever called on a
`ClassDef` node). -/
def extract_class_info : PyStmt → ClassInfo
  | .classDef nm bases bd ln =>
    { name := nm
      docstring := get_docstring bd
      methods := bd.filterMap (fun s => match s with
        | .functionDef .. => some (extract_function_info s)
        | _ => none)
      attributes := []
      inheritance := bases.filterMap (fun b => match b with
        | .nm s => some s
        | .exprOther => none)
      interfaces := []
      visibility := "public"
      is_abstract := false
      line_number := ln }
  | _ =>
    { name := "", docstring := none, methods := [], attributes := [], inheritance := []
      interfaces := [], visibility := "", is_abstract := false, line_number := 0 }

/-- Source: `PythonAnalyzer._is_method` — walks the whole tree and checks
whether the node occurs directly in some class body (`node in parent.body`;
Python compares AST nodes by identity, which structural equality refines
whenever no two distinct definition nodes are structurally equal — the
`FunctionDef` line numbers being distinct, as they are in any real parse,
is enough). -/
def is_method (node : PyStmt) (tree : List PyStmt) : Bool :=
  (walkL tree).any (fun parent => match parent with
    | .classDef _ _ b _ => b.any (fun x => beqStmt x node)
    | _ => false)

/-- Source: `PythonAnalyzer._extract_dependencies`.  `list(set(...))` is
modelled by `List.dedup` (the Python iteration order of a `set` is
unspecified; all claims about the result are order-insensitive). -/
def extract_dependencies (imports : List String) : List String :=
  let standard_libs : List String :=
    ["os", "sys", "json", "datetime", "collections", "re", "math", "random"]
  let external_deps := imports.filterMap (fun imp =>
    let base_module := asStr (match splitChar '.' imp.data with
      | h :: _ => h
      | [] => [])
    if base_module ∉ standard_libs ∧ ¬ strStarts base_module "_" = true then
      some base_module
    else none)
  external_deps.dedup

/-- Source: `PythonAnalyzer._calculate_complexity`. -/
def calculate_complexity (analysis : FileAnalysis) : Rat :=
  (analysis.functions.length : Rat) * 1.5 + (analysis.classes.length : Rat) * 2.0 +
    (analysis.dependencies.length : Rat) * 0.5

/-- Source: `PythonAnalyzer._determine_main_purpose`. -/
def determine_main_purpose (analysis : FileAnalysis) (content : String) : String :=
  match ((splitChar '\n' content.data).take 10).find? (fun line =>
      let t := pyStrip line
      (match t with | '#' :: _ => true | _ => false) && decide (t.length > 5)) with
  | some line => asStr (pyStrip ((pyStrip line).drop 1))
  | none =>
    if analysis.classes.length > analysis.functions.length then
      "Definição de classes e estruturas de dados"
    else if analysis.functions.length > 0 then
      "Implementação de funções utilitárias"
    else
      "Configuração ou script auxiliar"

/-- Source: `PythonAnalyzer._create_error_analysis`. -/
def create_error_analysis (filepath language error : String) : FileAnalysis :=
  { filepath := filepath
    language := language
    imports := []
    functions := []
    classes := []
    dependencies := []
    main_purpose := "Erro na análise: " ++ error
    complexity_score := 0.0
    package_namespace := none
    entry_point := none }

/-- The body of the `for node in ast.walk(tree)` loop in
`PythonAnalyzer._analyze_ast`. -/
def processNode (tree : List PyStmt) (analysis : FileAnalysis) (node : PyStmt) : FileAnalysis :=
  match node with
  | .importStmt names => { analysis with imports := analysis.imports ++ names }
  | .importFrom (some m) names =>
      { analysis with imports := analysis.imports ++ names.map (fun nm => m ++ "." ++ nm) }
  | .importFrom none _ => analysis
  | .functionDef nm args ret bd ln =>
      if is_method (.functionDef nm args ret bd ln) tree then analysis
      else { analysis with functions :=
        analysis.functions ++ [extract_function_info (.functionDef nm args ret bd ln)] }
  | .classDef nm bs bd ln =>
      { analysis with classes :=
        analysis.classes ++ [extract_class_info (.classDef nm bs bd ln)] }
  | _ => analysis

def mainGuard : String := "if __name__ == \"__main__\""

/-- Source: `PythonAnalyzer._analyze_ast`. -/
def analyze_ast (tree : List PyStmt) (analysis : FileAnalysis) (content : String) : FileAnalysis :=
  let a1 := (walkL tree).foldl (processNode tree) analysis
  let a2 := if listContains content.data mainGuard.data then
      { a1 with entry_point := some "__main__" }
    else a1
  let a3 := { a2 with dependencies := extract_dependencies a2.imports }
  let a4 := { a3 with complexity_score := calculate_complexity a3 }
  { a4 with main_purpose := determine_main_purpose a4 content }

/-- The fresh record each analyzer builds before filling it in. -/
def freshAnalysis (filepath language : String) : FileAnalysis :=
  { filepath := filepath
    language := language
    imports := []
    functions := []
    classes := []
    dependencies := []
    main_purpose := ""
    complexity_score := 0.0
    package_namespace := none
    entry_point := none }

/-- Source: `PythonAnalyzer.analyze`.  `ast.parse` is an oracle: the
argument `parse` returns either the parsed module body or the diagnostic
message of the raised exception, which the source turns into an error
analysis. -/
def PythonAnalyzer_analyze (parse : String → Except String (List PyStmt))
    (content filepath : String) : FileAnalysis :=
  match parse content with
  | .ok tree => analyze_ast tree (freshAnalysis filepath "Python") content
  | .error e => create_error_analysis filepath "Python" e

/-! ## A backtracking matcher for Python `re`

The heuristic analyzers use `re.findall` / `re.search` with a fixed list
of patterns.  The fragment of regular-expression syntax those patterns
use — literals, character classes, greedy `*` `+` `?`, lazy `*?`,
alternation and capturing groups (with `''` for an unmatched group) — is
given Python's leftmost, backtracking-priority semantics by a
continuation-passing matcher.  Starred subexpressions in the source
patterns are always single-character classes, which the `RE` type
reflects.
-/

abbrev MGroups : Type := Nat → List Char

inductive RE where
  | eps : RE
  | ch (p : Char → Bool) : RE
  | lit (cs : List Char) : RE
  | cat (a b : RE) : RE
  | alt (a b : RE) : RE
  | starG (p : Char → Bool) : RE
  | starL (p : Char → Bool) : RE
  | plusG (p : Char → Bool) : RE
  | optG (r : RE) : RE
  | grp (i : Nat) (r : RE) : RE

abbrev MRes : Type := MGroups × List Char

/-- Greedy class star: consume as much as possible, then give back one
character at a time. -/
def starGAux (p : Char → Bool) (g : MGroups) (k : List Char → MGroups → Option MRes) :
    List Char → Option MRes
  | [] => k [] g
  | c :: t =>
    if p c then
      match starGAux p g k t with
      | some r => some r
      | none => k (c :: t) g
    else k (c :: t) g

/-- Lazy class star: try the continuation first, consume only on failure. -/
def starLAux (p : Char → Bool) (g : MGroups) (k : List Char → MGroups → Option MRes) :
    List Char → Option MRes
  | [] => k [] g
  | c :: t =>
    match k (c :: t) g with
    | some r => some r
    | none => if p c then starLAux p g k t else none

def mat : RE → List Char → MGroups → (List Char → MGroups → Option MRes) → Option MRes
  | .eps, s, g, k => k s g
  | .ch p, s, g, k => match s with
    | [] => none
    | c :: t => if p c then k t g else none
  | .lit cs, s, g, k => if cs.isPrefixOf s then k (s.drop cs.length) g else none
  | .cat a b, s, g, k => mat a s g (fun s2 g2 => mat b s2 g2 k)
  | .alt a b, s, g, k => match mat a s g k with
    | some r => some r
    | none => mat b s g k
  | .starG p, s, g, k => starGAux p g k s
  | .starL p, s, g, k => starLAux p g k s
  | .plusG p, s, g, k => match s with
    | [] => none
    | c :: t => if p c then starGAux p g k t else none
  | .optG r, s, g, k => match mat r s g k with
    | some r' => some r'
    | none => k s g
  | .grp i r, s, g, k =>
    mat r s g (fun s2 g2 => k s2 (fun j => if j = i then s.take (s.length - s2.length) else g2 j))

/-- Attempt a match anchored at the start of `s`; an unmatched group keeps
the empty string, as Python's `findall` reports it. -/
def matchAt (r : RE) (s : List Char) : Option MRes :=
  mat r s (fun _ => []) (fun rest g => some (g, rest))

/-- Scan left to right for the first match; also reports the remainder
after the match and the number of characters the match consumed. -/
def searchAux (r : RE) : List Char → Option (MGroups × List Char × Nat)
  | [] => match matchAt r [] with
    | some (g, rest) => some (g, rest, 0)
    | none => none
  | c :: t => match matchAt r (c :: t) with
    | some (g, rest) => some (g, rest, (c :: t).length - rest.length)
    | none => searchAux r t

/-- Python `re.search`, reduced to the group table of the first match. -/
def reSearch (r : RE) (s : List Char) : Option MGroups :=
  (searchAux r s).map (fun x => x.1)

/-- Python `re.findall`: repeated non-overlapping scans (an empty match
advances by one position, as in `re`; the source's patterns never match
the empty string). -/
def findallAux (r : RE) : Nat → List Char → List MGroups
  | 0, _ => []
  | f + 1, s => match searchAux r s with
    | none => []
    | some (g, rest, n) =>
      g :: (if n = 0 then match rest with
              | [] => []
              | _ :: t => findallAux r f t
            else findallAux r f rest)

def reFindall (r : RE) (s : List Char) : List MGroups := findallAux r (s.length + 1) s

/-- Python `\w` (ASCII part). -/
def wCls (c : Char) : Bool :=
  ('a' ≤ c && c ≤ 'z') || ('A' ≤ c && c ≤ 'Z') || ('0' ≤ c && c ≤ '9') || c = '_'

/-- Python `\s` (ASCII part). -/
def sCls (c : Char) : Bool := pyIsSpace c

/-- Python `.` (any character but a newline). -/
def dotCls (c : Char) : Bool := c != '\n'

def quoteCls (c : Char) : Bool := c = '"' || c = '\''

def reSeq (l : List RE) : RE := l.foldr RE.cat RE.eps

def litS (s : String) : RE := .lit s.data

/-! ## `JavaScriptAnalyzer` -/

/-- Source patterns `import\s+.*?\s+from\s+["\']([^"\']+)["\']`,
`require\(["\']([^"\']+)["\']\)` and `import\s+["\']([^"\']+)["\']`. -/
def js_import_pats : List RE :=
  [ reSeq [litS "import", .plusG sCls, .starL dotCls, .plusG sCls, litS "from", .plusG sCls,
      .ch quoteCls, .grp 1 (.plusG (fun c => !quoteCls c)), .ch quoteCls]
  , reSeq [litS "require(", .ch quoteCls, .grp 1 (.plusG (fun c => !quoteCls c)), .ch quoteCls,
      litS ")"]
  , reSeq [litS "import", .plusG sCls, .ch quoteCls, .grp 1 (.plusG (fun c => !quoteCls c)),
      .ch quoteCls] ]

/-- Source patterns `function\s+(\w+)\s*\([^)]*\)`,
`const\s+(\w+)\s*=\s*\([^)]*\)\s*=>\s*\{`, `(\w+)\s*:\s*function\s*\([^)]*\)`
and `(\w+)\s*:\s*\([^)]*\)\s*=>\s*\{`. -/
def js_func_pats : List RE :=
  [ reSeq [litS "function", .plusG sCls, .grp 1 (.plusG wCls), .starG sCls,
      .ch (fun c => c = '('), .starG (fun c => c != ')'), .ch (fun c => c = ')')]
  , reSeq [litS "const", .plusG sCls, .grp 1 (.plusG wCls), .starG sCls,
      .ch (fun c => c = '='), .starG sCls, .ch (fun c => c = '('),
      .starG (fun c => c != ')'), .ch (fun c => c = ')'), .starG sCls,
      litS "=>", .starG sCls, .ch (fun c => c = '\x7b')]
  , reSeq [.grp 1 (.plusG wCls), .starG sCls, .ch (fun c => c = ':'), .starG sCls,
      litS "function", .starG sCls, .ch (fun c => c = '('),
      .starG (fun c => c != ')'), .ch (fun c => c = ')')]
  , reSeq [.grp 1 (.plusG wCls), .starG sCls, .ch (fun c => c = ':'), .starG sCls,
      .ch (fun c => c = '('), .starG (fun c => c != ')'), .ch (fun c => c = ')'),
      .starG sCls, litS "=>", .starG sCls, .ch (fun c => c = '\x7b')] ]

/-- Source pattern `class\s+(\w+)(?:\s+extends\s+(\w+))?`. -/
def js_class_pat : RE :=
  reSeq [litS "class", .plusG sCls, .grp 1 (.plusG wCls),
    .optG (reSeq [.plusG sCls, litS "extends", .plusG sCls, .grp 2 (.plusG wCls)])]

/-- Source: `JavaScriptAnalyzer._find_line_number` (and the identical
`JavaAnalyzer._find_line_number`): the first line that contains the
identifier as a substring, 1-based, defaulting to 1. -/
def find_line_number (content identifier : String) : Nat :=
  match (splitChar '\n' content.data).findIdx? (fun line => listContains line identifier.data) with
  | some i => i + 1
  | none => 1

/-- Source: `JavaScriptAnalyzer._extract_js_dependencies`. -/
def extract_js_dependencies (imports : List String) : List String :=
  let external_deps := imports.filterMap (fun imp =>
    if ¬ strStarts imp "." = true ∧ ¬ strStarts imp "/" = true then
      some (asStr (match splitChar '/' imp.data with
        | h :: _ => h
        | [] => []))
    else none)
  external_deps.dedup

/-- Source: `JavaScriptAnalyzer._determine_js_purpose`. -/
def determine_js_purpose (content : String) : String :=
  if listContains content.data "export default".data || listContains content.data "module.exports".data then
    "Módulo para exportação"
  else if listContains content.data "React".data || listContains content.data "Component".data then
    "Componente React"
  else if listContains content.data "express".data || listContains content.data "app.listen".data then
    "Servidor/API"
  else
    "Script JavaScript"

/-- The import strings collected by the three import patterns of
`JavaScriptAnalyzer._analyze_js_content`, in source order. -/
def jsImportsFound (content : String) : List String :=
  js_import_pats.flatMap (fun p => (reFindall p content.data).map (fun g => asStr (g 1)))

/-- The `FunctionInfo` records built by the function-pattern loop of
`JavaScriptAnalyzer._analyze_js_content`. -/
def jsFunctionsFound (content : String) : List FunctionInfo :=
  js_func_pats.flatMap (fun p => (reFindall p content.data).map (fun g =>
    let func_name := asStr (g 1)
    { name := func_name
      docstring := none
      parameters := []
      return_type := none
      visibility := "public"
      complexity := "Média"
      line_number := find_line_number content func_name
      annotations := [] }))

/-- The `ClassInfo` records built by the class-pattern loop of
`JavaScriptAnalyzer._analyze_js_content`. -/
def jsClassesFound (content : String) : List ClassInfo :=
  (reFindall js_class_pat content.data).map (fun g =>
    let class_name := asStr (g 1)
    { name := class_name
      docstring := none
      methods := []
      attributes := []
      inheritance := if asStr (g 2) = "" then [] else [asStr (g 2)]
      interfaces := []
      visibility := "public"
      is_abstract := false
      line_number := find_line_number content class_name })

/-- Source: `JavaScriptAnalyzer._analyze_js_content`. -/
def analyze_js_content (content : String) (analysis : FileAnalysis) : FileAnalysis :=
  let a1 := { analysis with imports := analysis.imports ++ jsImportsFound content }
  let a2 := { a1 with functions := a1.functions ++ jsFunctionsFound content }
  let a3 := { a2 with classes := a2.classes ++ jsClassesFound content }
  let a4 := { a3 with dependencies := extract_js_dependencies a3.imports }
  let a5 := { a4 with complexity_score :=
    (a4.functions.length : Rat) * 1.5 + (a4.classes.length : Rat) * 2.0 }
  { a5 with main_purpose := determine_js_purpose content }

/-- Source: `JavaScriptAnalyzer.analyze`. -/
def JavaScriptAnalyzer_analyze (content filepath : String) : FileAnalysis :=
  let lang := if strEnds filepath ".ts" || strEnds filepath ".tsx" then "TypeScript" else "JavaScript"
  analyze_js_content content (freshAnalysis filepath lang)

/-! ## `JavaAnalyzer` -/

/-- Source pattern `package\s+([^;]+);`. -/
def java_package_pat : RE :=
  reSeq [litS "package", .plusG sCls, .grp 1 (.plusG (fun c => c != ';')),
    .ch (fun c => c = ';')]

/-- Source pattern `import\s+([^;]+);`. -/
def java_import_pat : RE :=
  reSeq [litS "import", .plusG sCls, .grp 1 (.plusG (fun c => c != ';')),
    .ch (fun c => c = ';')]

/-- Source pattern
`(?:public\s+)?(?:abstract\s+)?class\s+(\w+)(?:\s+extends\s+(\w+))?(?:\s+implements\s+([^{]+))?`. -/
def java_class_pat : RE :=
  reSeq [.optG (reSeq [litS "public", .plusG sCls])
    , .optG (reSeq [litS "abstract", .plusG sCls])
    , litS "class", .plusG sCls, .grp 1 (.plusG wCls)
    , .optG (reSeq [.plusG sCls, litS "extends", .plusG sCls, .grp 2 (.plusG wCls)])
    , .optG (reSeq [.plusG sCls, litS "implements", .plusG sCls,
        .grp 3 (.plusG (fun c => c != '\x7b'))]) ]

/-- Source pattern
`(?:public|private|protected)?\s*(?:static\s+)?(?:final\s+)?(\w+)\s+(\w+)\s*\([^)]*\)`. -/
def java_method_pat : RE :=
  reSeq [.optG (.alt (litS "public") (.alt (litS "private") (litS "protected")))
    , .starG sCls
    , .optG (reSeq [litS "static", .plusG sCls])
    , .optG (reSeq [litS "final", .plusG sCls])
    , .grp 1 (.plusG wCls), .plusG sCls, .grp 2 (.plusG wCls), .starG sCls
    , .ch (fun c => c = '('), .starG (fun c => c != ')'), .ch (fun c => c = ')') ]

/-- Source: `JavaAnalyzer._extract_java_dependencies`. -/
def extract_java_dependencies (imports : List String) : List String :=
  let external_deps := imports.filterMap (fun imp =>
    if ¬ strStarts imp "java." = true ∧ ¬ strStarts imp "javax." = true then
      some (asStr (match splitChar '.' imp.data with
        | h :: _ => h
        | [] => []))
    else none)
  external_deps.dedup

/-- Source: `JavaAnalyzer._determine_java_purpose`. -/
def determine_java_purpose (content : String) (analysis : FileAnalysis) : String :=
  if analysis.entry_point = some "main" then "Aplicação principal"
  else if analysis.classes.any (fun cls => listContains cls.name.data "Test".data) then
    "Testes unitários"
  else if analysis.classes.any (fun cls => listContains cls.name.data "Controller".data) then
    "Controlador web"
  else if analysis.classes.any (fun cls => listContains cls.name.data "Service".data) then
    "Serviço de negócio"
  else "Classe de domínio"

/-- The import strings collected by `JavaAnalyzer._analyze_java_content`. -/
def javaImportsFound (content : String) : List String :=
  (reFindall java_import_pat content.data).map (fun g => asStr (g 1))

/-- The `ClassInfo` records built by the class loop of
`JavaAnalyzer._analyze_java_content`. -/
def javaClassesFound (content : String) : List ClassInfo :=
  (reFindall java_class_pat content.data).map (fun g =>
    let class_name := asStr (g 1)
    { name := class_name
      docstring := none
      methods := []
      attributes := []
      inheritance := if asStr (g 2) = "" then [] else [asStr (g 2)]
      interfaces := if asStr (g 3) = "" then []
        else (splitChar ',' (g 3)).map (fun i => asStr (pyStrip i))
      visibility := "public"
      is_abstract := listContains content.data "abstract".data
      line_number := find_line_number content class_name })

/-- The `FunctionInfo` records built by the method loop of
`JavaAnalyzer._analyze_java_content` (keyword pseudo-matches filtered out). -/
def javaMethodsFound (content : String) : List FunctionInfo :=
  (reFindall java_method_pat content.data).filterMap (fun g =>
    let return_type := asStr (g 1)
    let method_name := asStr (g 2)
    if method_name ∉ (["class", "if", "for", "while"] : List String) then
      some { name := method_name
             docstring := none
             parameters := []
             return_type := some return_type
             visibility := "public"
             complexity := "Média"
             line_number := find_line_number content method_name
             annotations := [] }
    else none)

/-- Source: `JavaAnalyzer._analyze_java_content`. -/
def analyze_java_content (content : String) (analysis : FileAnalysis) : FileAnalysis :=
  let a1 := match reSearch java_package_pat content.data with
    | some g => { analysis with package_namespace := some (asStr (g 1)) }
    | none => analysis
  let a2 := { a1 with imports := javaImportsFound content }
  let a3 := { a2 with classes := a2.classes ++ javaClassesFound content }
  let a4 := { a3 with functions := a3.functions ++ javaMethodsFound content }
  let a5 := if listContains content.data "public static void main".data then
      { a4 with entry_point := some "main" }
    else a4
  let a6 := { a5 with dependencies := extract_java_dependencies a5.imports }
  let a7 := { a6 with complexity_score :=
    (a6.functions.length : Rat) * 1.5 + (a6.classes.length : Rat) * 2.0 }
  { a7 with main_purpose := determine_java_purpose content a7 }

/-- Source: `JavaAnalyzer.analyze`. -/
def JavaAnalyzer_analyze (content filepath : String) : FileAnalysis :=
  analyze_java_content content (freshAnalysis filepath "Java")

/-! ## `MultiLanguageCodeAnalyzer` -/

/-- The capability surface of one registered analyzer (`analyze`,
`get_file_extensions`). -/
structure AnalyzerIface where
  analyze : String → String → FileAnalysis
  get_file_extensions : List String

def pythonAnalyzerIface (parse : String → Except String (List PyStmt)) : AnalyzerIface :=
  { analyze := PythonAnalyzer_analyze parse, get_file_extensions := [".py"] }

def javaScriptAnalyzerIface : AnalyzerIface :=
  { analyze := JavaScriptAnalyzer_analyze, get_file_extensions := [".js", ".ts", ".jsx", ".tsx"] }

def javaAnalyzerIface : AnalyzerIface :=
  { analyze := JavaAnalyzer_analyze, get_file_extensions := [".java"] }

/-- The analyzer list built at the start of `MultiLanguageCodeAnalyzer._run`. -/
def analyzersList (parse : String → Except String (List PyStmt)) : List AnalyzerIface :=
  [pythonAnalyzerIface parse, javaScriptAnalyzerIface, javaAnalyzerIface]

/-- Source: `MultiLanguageCodeAnalyzer._get_analyzer_for_extension`. -/
def get_analyzer_for_extension (extension : String) (analyzers : List AnalyzerIface) :
    Option AnalyzerIface :=
  analyzers.find? (fun analyzer => analyzer.get_file_extensions.contains extension)

/-- Python `pathlib.Path(p).suffix`: the final dot-suffix of the last path
component, empty when the dot is leading or trailing or absent. -/
def pathSuffix (p : String) : String :=
  let name := match (splitChar '/' p.data).getLast? with
    | some n => n
    | none => []
  match name.reverse.findIdx? (fun c => c = '.') with
  | none => ""
  | some j =>
    let i := name.length - 1 - j
    if 0 < i ∧ i < name.length - 1 then asStr (name.drop i) else ""

/-- The external result contract of `MultiLanguageCodeAnalyzer._run`
(`_function_to_dict` and `_class_to_dict` map each record field to the
identically named key, so the nested dictionaries are represented by
`FunctionInfo` / `ClassInfo` themselves). -/
structure ResultMapping where
  filepath : String
  language : String
  package_namespace : Option String
  entry_point : Option String
  imports : List String
  functions : List FunctionInfo
  classes : List ClassInfo
  dependencies : List String
  main_purpose : String
  complexity_score : Rat
  total_lines : Nat
  summary : String
  supported_languages : List String
deriving DecidableEq

inductive RunResult where
  | ok (m : ResultMapping) : RunResult
  | error (msg : String) : RunResult
deriving DecidableEq

/-- Source: `MultiLanguageCodeAnalyzer._generate_summary`. -/
def generate_summary (analysis : FileAnalysis) : String :=
  let parts : List String :=
    (if analysis.language ≠ "" then ["Arquivo " ++ analysis.language] else []) ++
    (if analysis.classes ≠ [] then [toString analysis.classes.length ++ " classe(s)"] else []) ++
    (if analysis.functions ≠ [] then [toString analysis.functions.length ++ " função(ões)"] else []) ++
    (if analysis.dependencies ≠ [] then
      [let deps_str := String.intercalate ", " (analysis.dependencies.take 3)
       let deps_str := if analysis.dependencies.length > 3 then
           deps_str ++ " e mais " ++ toString (analysis.dependencies.length - 3)
         else deps_str
       "Dependências: " ++ deps_str]
     else [])
  if parts ≠ [] then String.intercalate ". " parts else "Análise básica concluída"

/-- The dictionary literal returned by the success path of
`MultiLanguageCodeAnalyzer._run`. -/
def build_result_mapping (analyzers : List AnalyzerIface) (analysis : FileAnalysis)
    (content : String) : ResultMapping :=
  { filepath := analysis.filepath
    language := analysis.language
    package_namespace := analysis.package_namespace
    entry_point := analysis.entry_point
    imports := analysis.imports
    functions := analysis.functions
    classes := analysis.classes
    dependencies := analysis.dependencies
    main_purpose := analysis.main_purpose
    complexity_score := analysis.complexity_score
    total_lines := (splitChar '\n' content.data).length
    summary := generate_summary analysis
    supported_languages := analyzers.flatMap (fun a => a.get_file_extensions) }

/-- Source: `MultiLanguageCodeAnalyzer._run`.  The two effectful steps are
oracles: `parse` stands for `ast.parse` inside the Python analyzer and
`readRes` for `open(file_path).read()` — `Except.error e` meaning the read
raised an exception rendered as `e`.  Everything else in the body is pure,
so the outer `try/except` can only ever fire for the read, which is why the
embedding is total: every input yields `.ok` or `.error`, never a crash. -/
def MultiLanguageCodeAnalyzer_run (parse : String → Except String (List PyStmt))
    (file_path : String) (readRes : Except String String) : RunResult :=
  let analyzers := analyzersList parse
  let file_ext := lowerS (pathSuffix file_path)
  match get_analyzer_for_extension file_ext analyzers with
  | none => .error ("Linguagem não suportada para extensão " ++ file_ext)
  | some analyzer =>
    match readRes with
    | .error e => .error ("Erro ao analisar " ++ file_path ++ ": " ++ e)
    | .ok content =>
      .ok (build_result_mapping analyzers (analyzer.analyze content file_path) content)

/-! ## Specification-side counting over the tree

The claims about `_analyze_ast` compare the analyzer's output against
counts defined directly on the tree, through a depth-first enumeration
`treeList` that is independent of the analyzer's breadth-first `walkL`
(the two are proved to be permutations of each other below).
-/

def isFunDefB : PyStmt → Bool
  | .functionDef .. => true
  | _ => false

def isClassDefB : PyStmt → Bool
  | .classDef .. => true
  | _ => false

/-- Depth-first (pre-order) enumeration of every statement node, with the
same fuel discipline as `walkAux`. -/
def treeListAux : Nat → List PyStmt → List PyStmt
  | 0, _ => []
  | _ + 1, [] => []
  | f + 1, s :: t => s :: (treeListAux f (children s) ++ treeListAux f t)

def treeList (l : List PyStmt) : List PyStmt := treeListAux (stmtsSize l) l

/-- Total number of function-definition nodes anywhere in the module. -/
def funDefCount (m : List PyStmt) : Nat := (treeList m).countP isFunDefB

/-- Number of class-definition nodes anywhere in the module. -/
def classDefCount (m : List PyStmt) : Nat := (treeList m).countP isClassDefB

/-- Number of function definitions that sit at module scope (the claim's
"top-level functions"). -/
def topLevelFunCount (m : List PyStmt) : Nat := m.countP isFunDefB

/-- Function definitions directly inside one node's class body. -/
def directMethodCount : PyStmt → Nat
  | .classDef _ _ b _ => b.countP isFunDefB
  | _ => 0

/-- Total number of function definitions that are direct children of some
class body (the claim's `K`). -/
def methodDefCount (m : List PyStmt) : Nat := ((treeList m).map directMethodCount).sum

/-- The direct function-definition children of a class node (empty for
every other node); its concatenation over the tree is the multiset of
method definitions. -/
def methodChildren : PyStmt → List PyStmt
  | .classDef _ _ b _ => b.filter isFunDefB
  | _ => []

/-- The line numbers of all function definitions in the module.  These are
pairwise distinct in any really parsed module, which is the hypothesis
under which structural node equality agrees with Python's identity-based
`node in parent.body`. -/
def funDefLinenos (m : List PyStmt) : List Nat :=
  (treeList m).filterMap (fun s => match s with
    | .functionDef _ _ _ _ ln => some ln
    | _ => none)

/-- Claim C8's reading of the comment rule, verbatim from the spec: among
the first 10 lines, a comment line whose text is longer than 5 characters
AFTER stripping the comment marker; the first such line's text. -/
def claimC8CommentRule (content : String) : Option String :=
  (((splitChar '\n' content.data).take 10).find? (fun line =>
    let t := pyStrip line
    (match t with | '#' :: _ => true | _ => false) &&
      decide ((pyStrip (t.drop 1)).length > 5))).map
    (fun line => asStr (pyStrip ((pyStrip line).drop 1)))

/-! ## Concrete inputs used by the counterexamples and witnesses -/

/-- The Java input of claim C7. -/
def javaC7Content : String :=
  "package com.acme.app;\n\npublic class Foo extends Base implements A, B \x7b\n    public static void main(String[] args) \x7b\n    \x7d\n\x7d\n"

/-- A Python module whose first sufficiently long comment line (by the
code's measure, which counts the marker) is `#abcde`, while the first line
whose text is longer than 5 characters after stripping the marker is
`#abcdefgh`. -/
def c8content : String := "#abcde\n#abcdefgh\nx = 1\n"

/-- Source text and parsed module body for a top-level function with a
nested function definition inside its body. -/
def nestedSrc : String := "def f():\n    def g():\n        pass\n"

def nestedTree : List PyStmt :=
  [PyStmt.functionDef "f" [] none [PyStmt.functionDef "g" [] none [PyStmt.other] 2] 1]

/-- Source text and parsed module body for one top-level function plus one
class with one method. -/
def mixedSrc : String := "def f():\n    pass\nclass C:\n    def m(self):\n        pass\n"

def mixedTree : List PyStmt :=
  [PyStmt.functionDef "f" [] none [PyStmt.other] 1,
   PyStmt.classDef "C" [] [PyStmt.functionDef "m" ["self"] none [PyStmt.other] 4] 3]

/-- A Java file whose only occurrence of "abstract" is inside a comment. -/
def c10content : String := "// an abstract idea\npublic class A \x7b\x7d\n"

/-- A parse oracle for witnesses that never succeeds (a syntax error). -/
def parseFails : String → Except String (List PyStmt) := fun _ => Except.error "invalid syntax"

/-- A parse oracle for witnesses on inputs whose module body is empty. -/
def parseEmpty : String → Except String (List PyStmt) := fun _ => Except.ok []

/-! ## Claims C1, C3, C5, C7, C8, C9, C10 -/

/-- Claim C1, counterexample: dependency classification applied to
`["os", "requests", ".utils"]` does NOT return exactly the set
`{"requests"}` — the relative import `".utils"` is not excluded, its empty
first segment survives the stdlib and underscore filters. -/
theorem c1_deps_counterexample :
    ¬ (∀ x : String, x ∈ extract_dependencies ["os", "requests", ".utils"] ↔ x = "requests") := by
  intro h
  have h2 := (h "").mp (by decide)
  exact absurd h2 (by decide)

/-- Claim C1 as amended: on `["os", "requests", ".utils"]` the Python
dependency classifier returns exactly the set `{"requests", ""}`: first
segments in the standard-library set and first segments beginning with an
underscore are excluded and the rest deduplicated, but local/relative
imports are NOT filtered out, so `".utils"` contributes its empty first
segment. -/
theorem c1_deps_amended (x : String) :
    x ∈ extract_dependencies ["os", "requests", ".utils"] ↔ (x = "requests" ∨ x = "") := by
  have h : extract_dependencies ["os", "requests", ".utils"] = ["requests", ""] := by decide
  rw [h]
  simp

/-- Claim C3: for every input string on which `ast.parse` fails with
diagnostic `e`, `PythonAnalyzer.analyze` returns — without raising, being a
total function — a `FileAnalysis` whose language is "Python", whose
imports, functions, classes and dependencies are empty, and whose
`main_purpose` is the fixed parse-error marker followed by the diagnostic
message. -/
theorem c3_parse_error_recovery (parse : String → Except String (List PyStmt))
    (content filepath e : String) (h : parse content = Except.error e) :
    PythonAnalyzer_analyze parse content filepath =
      { filepath := filepath, language := "Python", imports := [], functions := [],
        classes := [], dependencies := [], main_purpose := "Erro na análise: " ++ e,
        complexity_score := 0, package_namespace := none, entry_point := none } := by
  unfold PythonAnalyzer_analyze
  rw [h]
  simp only [create_error_analysis]
  norm_num

/-- Claim C3, witness at a concrete failing parse. -/
theorem c3_witness :
    PythonAnalyzer_analyze parseFails "def f(:" "t.py" =
      { filepath := "t.py", language := "Python", imports := [], functions := [],
        classes := [], dependencies := [], main_purpose := "Erro na análise: invalid syntax",
        complexity_score := 0, package_namespace := none, entry_point := none } :=
  c3_parse_error_recovery parseFails "def f(:" "t.py" "invalid syntax" rfl

/-- Claim C5: on every input, the Python analyzer sets
`complexity_score = |functions| * 1.5 + |classes| * 2.0 + |dependencies| * 0.5`
over the lists it produced, while the JavaScript/TypeScript and the Java
analyzers set `complexity_score = |functions| * 1.5 + |classes| * 2.0`
with no dependency term. -/
theorem c5_complexity_formulas (parse : String → Except String (List PyStmt))
    (content filepath : String) :
    ((PythonAnalyzer_analyze parse content filepath).complexity_score =
      ((PythonAnalyzer_analyze parse content filepath).functions.length : Rat) * 1.5 +
      ((PythonAnalyzer_analyze parse content filepath).classes.length : Rat) * 2.0 +
      ((PythonAnalyzer_analyze parse content filepath).dependencies.length : Rat) * 0.5) ∧
    ((JavaScriptAnalyzer_analyze content filepath).complexity_score =
      ((JavaScriptAnalyzer_analyze content filepath).functions.length : Rat) * 1.5 +
      ((JavaScriptAnalyzer_analyze content filepath).classes.length : Rat) * 2.0) ∧
    ((JavaAnalyzer_analyze content filepath).complexity_score =
      ((JavaAnalyzer_analyze content filepath).functions.length : Rat) * 1.5 +
      ((JavaAnalyzer_analyze content filepath).classes.length : Rat) * 2.0) := by
  refine ⟨?_, ?_, ?_⟩
  · cases h : parse content with
    | ok tree =>
      simp only [PythonAnalyzer_analyze, h]
      simp [analyze_ast, calculate_complexity]
    | error e =>
      simp only [PythonAnalyzer_analyze, h]
      simp [create_error_analysis]
      norm_num
  · simp [JavaScriptAnalyzer_analyze, analyze_js_content]
  · simp [JavaAnalyzer_analyze, analyze_java_content]

/-- Claim C7: on the Java input with `package com.acme.app;`, the class
declaration `public class Foo extends Base implements A, B` and the
canonical main-method signature, the analysis has
`package_namespace = "com.acme.app"`, exactly one class `Foo` with
`inheritance = ["Base"]` and `interfaces = ["A", "B"]` (entries trimmed),
and `entry_point = "main"`. -/
theorem c7_java_extraction :
    (JavaAnalyzer_analyze javaC7Content "Foo.java").package_namespace = some "com.acme.app" ∧
    (JavaAnalyzer_analyze javaC7Content "Foo.java").classes.map (fun c => c.name) = ["Foo"] ∧
    (JavaAnalyzer_analyze javaC7Content "Foo.java").classes.map (fun c => c.inheritance) =
      [["Base"]] ∧
    (JavaAnalyzer_analyze javaC7Content "Foo.java").classes.map (fun c => c.interfaces) =
      [["A", "B"]] ∧
    (JavaAnalyzer_analyze javaC7Content "Foo.java").entry_point = some "main" := by
  decide

/-- Claim C8, counterexample: on `c8content` the first of the first 10
lines whose text is longer than 5 characters after stripping the marker is
`#abcdefgh` (text `abcdefgh`), but the analyzer's `main_purpose` is
`abcde` — the code compares 5 against the length of the whole stripped
line including the `#` marker, so the earlier, shorter comment wins. -/
theorem c8_purpose_counterexample :
    claimC8CommentRule c8content = some "abcdefgh" ∧
    (PythonAnalyzer_analyze (fun _ => Except.ok [PyStmt.other]) c8content "t.py").main_purpose =
      "abcde" ∧
    ("abcde" : String) ≠ "abcdefgh" := by
  decide

/-- Claim C8 as amended: if any of the first 10 lines, once stripped of
surrounding whitespace, starts with `#` and is longer than 5 characters
INCLUDING the marker, then the first such line's text (marker removed,
whitespace trimmed) becomes `main_purpose`, and this rule takes precedence
over every structural heuristic (the parsed module body is universally
quantified). -/
theorem c8_purpose_amended (parse : String → Except String (List PyStmt))
    (tree : List PyStmt) (content filepath : String) (line : List Char)
    (hp : parse content = Except.ok tree)
    (hl : ((splitChar '\n' content.data).take 10).find? (fun l =>
        let t := pyStrip l
        (match t with | '#' :: _ => true | _ => false) && decide (t.length > 5)) = some line) :
    (PythonAnalyzer_analyze parse content filepath).main_purpose =
      asStr (pyStrip ((pyStrip line).drop 1)) := by
  unfold PythonAnalyzer_analyze
  rw [hp]
  simp [analyze_ast, determine_main_purpose, hl]

/-- Claim C8, witness: a comment line wins over the class-heavy structural
heuristic. -/
theorem c8_purpose_witness :
    (PythonAnalyzer_analyze (fun _ => Except.ok [PyStmt.classDef "A" [] [PyStmt.other] 2])
        "# ferramenta de analise\nclass A:\n    pass\n" "t.py").main_purpose =
      asStr (pyStrip ((pyStrip ("# ferramenta de analise".data)).drop 1)) ∧
    asStr (pyStrip ((pyStrip ("# ferramenta de analise".data)).drop 1)) = "ferramenta de analise" :=
  ⟨c8_purpose_amended _ [PyStmt.classDef "A" [] [PyStmt.other] 2] _ "t.py"
      ("# ferramenta de analise".data) rfl (by decide),
   by decide⟩

/-- Helper: the class list the JavaScript analyzer hands back is exactly
the class-pattern matches. -/
theorem jsAnalyze_classes_eq (content filepath : String) :
    (JavaScriptAnalyzer_analyze content filepath).classes = jsClassesFound content := by
  simp [JavaScriptAnalyzer_analyze, analyze_js_content, freshAnalysis]

/-- Helper: the class list the Java analyzer hands back is exactly the
class-pattern matches. -/
theorem javaAnalyze_classes_eq (content filepath : String) :
    (JavaAnalyzer_analyze content filepath).classes = javaClassesFound content := by
  unfold JavaAnalyzer_analyze analyze_java_content
  cases h : reSearch java_package_pat content.data <;>
    simp only [h, freshAnalysis] <;> split <;> simp

/-- Claim C9: every `ClassInfo` produced by the heuristic analyzers
(JavaScript/TypeScript and Java) has an empty `methods` list — matched
functions only ever land in the top-level `functions` list. -/
theorem c9_heuristic_methods_empty (content filepath : String) (c : ClassInfo) :
    (c ∈ (JavaScriptAnalyzer_analyze content filepath).classes → c.methods = []) ∧
    (c ∈ (JavaAnalyzer_analyze content filepath).classes → c.methods = []) := by
  constructor
  · intro hc
    rw [jsAnalyze_classes_eq] at hc
    obtain ⟨g, _, rfl⟩ := List.mem_map.mp hc
    rfl
  · intro hc
    rw [javaAnalyze_classes_eq] at hc
    obtain ⟨g, _, rfl⟩ := List.mem_map.mp hc
    rfl

/-- Claim C9, witness at one concrete JavaScript class and one concrete
Java class. -/
theorem c9_witness :
    ({ name := "A", docstring := none, methods := [], attributes := [], inheritance := [],
       interfaces := [], visibility := "public", is_abstract := false,
       line_number := 1 } : ClassInfo).methods = ([] : List FunctionInfo) ∧
    ({ name := "B", docstring := none, methods := [], attributes := [], inheritance := [],
       interfaces := [], visibility := "public", is_abstract := false,
       line_number := 1 } : ClassInfo).methods = ([] : List FunctionInfo) :=
  ⟨(c9_heuristic_methods_empty "class A \x7b\x7d" "a.js" _).1 (by decide),
   (c9_heuristic_methods_empty "class B \x7b\x7d" "B.java" _).2 (by decide)⟩

/-- Claim C10: in the Java analyzer every extracted class gets the same
`is_abstract` value, true exactly when the substring "abstract" occurs
anywhere in the file content (comments and strings included). -/
theorem c10_is_abstract_whole_file (content filepath : String) (c : ClassInfo)
    (h : c ∈ (JavaAnalyzer_analyze content filepath).classes) :
    c.is_abstract = listContains content.data "abstract".data := by
  rw [javaAnalyze_classes_eq] at h
  obtain ⟨g, _, rfl⟩ := List.mem_map.mp h
  rfl

/-- Claim C10, witness: the only "abstract" in `c10content` sits inside a
comment, yet the class `A` extracted from it has `is_abstract = true`. -/
theorem c10_witness :
    ({ name := "A", docstring := none, methods := [], attributes := [], inheritance := [],
       interfaces := [], visibility := "public", is_abstract := true,
       line_number := 2 } : ClassInfo).is_abstract =
      listContains c10content.data "abstract".data ∧
    listContains c10content.data "abstract".data = true :=
  ⟨c10_is_abstract_whole_file c10content "A.java" _ (by decide), by decide⟩

/-! ## Claims C6 and C4 -/

/-- Claim C6: for every file path whose lowercased suffix belongs to a
registered analyzer's declared extensions, detection selects that analyzer
(the registry has no overlap, so "first-registered" and "that analyzer"
coincide); for any other suffix, the call returns the unsupported-language
error mapping instead of an analysis. -/
theorem c6_extension_dispatch (parse : String → Except String (List PyStmt))
    (p : String) (readRes : Except String String) :
    (lowerS (pathSuffix p) ∈ ([".py"] : List String) →
      get_analyzer_for_extension (lowerS (pathSuffix p)) (analyzersList parse) =
        some (pythonAnalyzerIface parse)) ∧
    (lowerS (pathSuffix p) ∈ ([".js", ".ts", ".jsx", ".tsx"] : List String) →
      get_analyzer_for_extension (lowerS (pathSuffix p)) (analyzersList parse) =
        some javaScriptAnalyzerIface) ∧
    (lowerS (pathSuffix p) ∈ ([".java"] : List String) →
      get_analyzer_for_extension (lowerS (pathSuffix p)) (analyzersList parse) =
        some javaAnalyzerIface) ∧
    (lowerS (pathSuffix p) ∉ ([".py", ".js", ".ts", ".jsx", ".tsx", ".java"] : List String) →
      MultiLanguageCodeAnalyzer_run parse p readRes =
        RunResult.error ("Linguagem não suportada para extensão " ++ lowerS (pathSuffix p))) := by
  refine ⟨?_, ?_, ?_, ?_⟩
  · intro h
    rw [List.mem_singleton] at h
    rw [h]
    rfl
  · intro h
    simp only [List.mem_cons, List.mem_singleton, List.not_mem_nil, or_false] at h
    rcases h with h | h | h | h <;> rw [h] <;> rfl
  · intro h
    rw [List.mem_singleton] at h
    rw [h]
    rfl
  · intro h
    have hn : get_analyzer_for_extension (lowerS (pathSuffix p)) (analyzersList parse) = none := by
      apply List.find?_eq_none.mpr
      intro a ha
      simp only [analyzersList, pythonAnalyzerIface, javaScriptAnalyzerIface,
        javaAnalyzerIface, List.mem_cons, List.not_mem_nil, or_false] at ha
      rcases ha with rfl | rfl | rfl <;>
        · simp only [List.contains, List.elem_eq_mem, decide_eq_true_eq]
          intro hmem
          apply h
          simp at hmem ⊢
          tauto
    simp only [MultiLanguageCodeAnalyzer_run, hn]

/-- Claim C6, witness: the uppercase suffix ".PY" is lowered and routed to
the Python analyzer, while an unregistered suffix produces the
unsupported-language error mapping. -/
theorem c6_witness :
    get_analyzer_for_extension (lowerS (pathSuffix "dir/a.PY")) (analyzersList parseEmpty) =
      some (pythonAnalyzerIface parseEmpty) ∧
    MultiLanguageCodeAnalyzer_run parseEmpty "a.xyz" (Except.ok "") =
      RunResult.error ("Linguagem não suportada para extensão " ++ lowerS (pathSuffix "a.xyz")) :=
  ⟨(c6_extension_dispatch parseEmpty "dir/a.PY" (Except.ok "")).1 (by decide),
   (c6_extension_dispatch parseEmpty "a.xyz" (Except.ok "")).2.2.2 (by decide)⟩

/-- Claim C4: the top-level call is a total function — it never raises —
and it returns the error mapping exactly when the extension is unsupported
or the file read fails (any internal exception, both effectful steps being
the oracles), and otherwise the full result mapping built from the
selected analyzer's analysis. -/
theorem c4_run_error_shape (parse : String → Except String (List PyStmt))
    (file_path : String) (readRes : Except String String) :
    (get_analyzer_for_extension (lowerS (pathSuffix file_path)) (analyzersList parse) = none →
      MultiLanguageCodeAnalyzer_run parse file_path readRes =
        RunResult.error ("Linguagem não suportada para extensão " ++ lowerS (pathSuffix file_path))) ∧
    (∀ analyzer e,
      get_analyzer_for_extension (lowerS (pathSuffix file_path)) (analyzersList parse) =
        some analyzer →
      readRes = Except.error e →
      MultiLanguageCodeAnalyzer_run parse file_path readRes =
        RunResult.error ("Erro ao analisar " ++ file_path ++ ": " ++ e)) ∧
    (∀ analyzer content,
      get_analyzer_for_extension (lowerS (pathSuffix file_path)) (analyzersList parse) =
        some analyzer →
      readRes = Except.ok content →
      MultiLanguageCodeAnalyzer_run parse file_path readRes =
        RunResult.ok (build_result_mapping (analyzersList parse)
          (analyzer.analyze content file_path) content)) := by
  refine ⟨?_, ?_, ?_⟩
  · intro h
    simp only [MultiLanguageCodeAnalyzer_run, h]
  · intro analyzer e h hr
    simp only [MultiLanguageCodeAnalyzer_run, h, hr]
  · intro analyzer content h hr
    simp only [MultiLanguageCodeAnalyzer_run, h, hr]

/-- Claim C4, witness: the three shapes at concrete inputs — unsupported
extension, failing read, successful read. -/
theorem c4_witness :
    MultiLanguageCodeAnalyzer_run parseEmpty "notes.txt" (Except.ok "") =
      RunResult.error ("Linguagem não suportada para extensão " ++ lowerS (pathSuffix "notes.txt")) ∧
    MultiLanguageCodeAnalyzer_run parseEmpty "m.py" (Except.error "No such file or directory") =
      RunResult.error ("Erro ao analisar " ++ "m.py" ++ ": " ++ "No such file or directory") ∧
    MultiLanguageCodeAnalyzer_run parseEmpty "m.py" (Except.ok "x = 1\n") =
      RunResult.ok (build_result_mapping (analyzersList parseEmpty)
        ((pythonAnalyzerIface parseEmpty).analyze "x = 1\n" "m.py") "x = 1\n") :=
  ⟨(c4_run_error_shape parseEmpty "notes.txt" (Except.ok "")).1 rfl,
   (c4_run_error_shape parseEmpty "m.py" (Except.error "No such file or directory")).2.1
      (pythonAnalyzerIface parseEmpty) "No such file or directory" rfl rfl,
   (c4_run_error_shape parseEmpty "m.py" (Except.ok "x = 1\n")).2.2
      (pythonAnalyzerIface parseEmpty) "x = 1\n" rfl rfl⟩

/-! ## Infrastructure for claim C2

The analyzer enumerates nodes breadth-first (`walkL`); the specification
counts are depth-first (`treeList`).  The lemmas below establish the
recursion equations of both fueled enumerations, that they are
permutations of each other, and how the analyzer's fold fills the
`functions` and `classes` lists.
-/

theorem stmtSize_pos (s : PyStmt) : 1 ≤ stmtSize s := by
  cases s <;> simp [stmtSize]

theorem stmtSize_children (s : PyStmt) : stmtSize s = 1 + stmtsSize (children s) := by
  cases s <;> simp [children, stmtSize, stmtsSize]

theorem stmtsSize_append (a b : List PyStmt) :
    stmtsSize (a ++ b) = stmtsSize a + stmtsSize b := by
  induction a with
  | nil => simp [stmtsSize]
  | cons s t ih =>
    have h1 : stmtsSize ((s :: t) ++ b) = stmtSize s + stmtsSize (t ++ b) := rfl
    have h2 : stmtsSize (s :: t) = stmtSize s + stmtsSize t := rfl
    rw [h1, h2, ih]
    omega

theorem stmtsSize_childrenAll (l : List PyStmt) :
    stmtsSize (childrenAll l) + l.length = stmtsSize l := by
  induction l with
  | nil => simp [childrenAll, stmtsSize]
  | cons s t ih =>
    have hc : childrenAll (s :: t) = children s ++ childrenAll t := rfl
    rw [hc, stmtsSize_append]
    have h2 := stmtSize_children s
    have h3 : stmtsSize (s :: t) = stmtSize s + stmtsSize t := rfl
    simp only [List.length_cons]
    omega

theorem stmtsSize_eq_zero {l : List PyStmt} (h : stmtsSize l = 0) : l = [] := by
  cases l with
  | nil => rfl
  | cons s t =>
    have := stmtSize_pos s
    simp [stmtsSize] at h
    omega

theorem walkAux_nil (f : Nat) : walkAux f [] = [] := by cases f <;> rfl

theorem walkAux_fuel :
    ∀ f f' (l : List PyStmt), stmtsSize l ≤ f → stmtsSize l ≤ f' →
      walkAux f l = walkAux f' l := by
  intro f
  induction f with
  | zero =>
    intro f' l h _
    rw [stmtsSize_eq_zero (Nat.le_zero.mp h)]
    rw [walkAux_nil, walkAux_nil]
  | succ f ih =>
    intro f' l h h'
    cases l with
    | nil => rw [walkAux_nil, walkAux_nil]
    | cons s t =>
      cases f' with
      | zero =>
        exfalso
        have h0 := stmtsSize_eq_zero (Nat.le_zero.mp h')
        exact List.cons_ne_nil s t h0
      | succ f' =>
        show (s :: t) ++ walkAux f (childrenAll (s :: t)) =
          (s :: t) ++ walkAux f' (childrenAll (s :: t))
        have hsz := stmtsSize_childrenAll (s :: t)
        have hlen : 1 ≤ (s :: t).length := by simp
        rw [ih f' (childrenAll (s :: t)) (by omega) (by omega)]

theorem walkL_cons (s : PyStmt) (t : List PyStmt) :
    walkL (s :: t) = (s :: t) ++ walkL (childrenAll (s :: t)) := by
  unfold walkL
  obtain ⟨k, hk⟩ : ∃ k, stmtsSize (s :: t) = k + 1 := by
    have h1 := stmtSize_pos s
    have : stmtsSize (s :: t) = stmtSize s + stmtsSize t := rfl
    exact ⟨stmtsSize (s :: t) - 1, by omega⟩
  rw [hk]
  show (s :: t) ++ walkAux k (childrenAll (s :: t)) = _
  have hsz := stmtsSize_childrenAll (s :: t)
  have hlen : 1 ≤ (s :: t).length := by simp
  rw [walkAux_fuel k (stmtsSize (childrenAll (s :: t))) (childrenAll (s :: t))
    (by omega) le_rfl]

theorem treeListAux_nil (f : Nat) : treeListAux f [] = [] := by cases f <;> rfl

theorem treeListAux_fuel :
    ∀ f f' (l : List PyStmt), stmtsSize l ≤ f → stmtsSize l ≤ f' →
      treeListAux f l = treeListAux f' l := by
  intro f
  induction f with
  | zero =>
    intro f' l h _
    rw [stmtsSize_eq_zero (Nat.le_zero.mp h)]
    rw [treeListAux_nil, treeListAux_nil]
  | succ f ih =>
    intro f' l h h'
    cases l with
    | nil => rw [treeListAux_nil, treeListAux_nil]
    | cons s t =>
      cases f' with
      | zero =>
        exfalso
        exact List.cons_ne_nil s t (stmtsSize_eq_zero (Nat.le_zero.mp h'))
      | succ f' =>
        show s :: (treeListAux f (children s) ++ treeListAux f t) =
          s :: (treeListAux f' (children s) ++ treeListAux f' t)
        have h1 := stmtSize_pos s
        have h2 := stmtSize_children s
        have h3 : stmtsSize (s :: t) = stmtSize s + stmtsSize t := rfl
        rw [ih f' (children s) (by omega) (by omega), ih f' t (by omega) (by omega)]

theorem treeList_cons (s : PyStmt) (t : List PyStmt) :
    treeList (s :: t) = s :: (treeList (children s) ++ treeList t) := by
  unfold treeList
  obtain ⟨k, hk⟩ : ∃ k, stmtsSize (s :: t) = k + 1 := by
    have h1 := stmtSize_pos s
    have : stmtsSize (s :: t) = stmtSize s + stmtsSize t := rfl
    exact ⟨stmtsSize (s :: t) - 1, by omega⟩
  rw [hk]
  show s :: (treeListAux k (children s) ++ treeListAux k t) = _
  have h1 := stmtSize_pos s
  have h2 := stmtSize_children s
  have h3 : stmtsSize (s :: t) = stmtSize s + stmtsSize t := rfl
  rw [treeListAux_fuel k (stmtsSize (children s)) (children s) (by omega) le_rfl,
    treeListAux_fuel k (stmtsSize t) t (by omega) le_rfl]

theorem treeList_nil : treeList [] = [] := rfl

theorem treeList_append (a b : List PyStmt) :
    treeList (a ++ b) = treeList a ++ treeList b := by
  induction a with
  | nil => rfl
  | cons s t ih =>
    rw [List.cons_append, treeList_cons, treeList_cons, ih, List.cons_append,
      List.append_assoc]

theorem level_perm_treeList (l : List PyStmt) :
    (l ++ treeList (childrenAll l)).Perm (treeList l) := by
  induction l with
  | nil => simp [childrenAll]
  | cons s t ih =>
    have hc : childrenAll (s :: t) = children s ++ childrenAll t := rfl
    rw [hc, treeList_append, treeList_cons, List.cons_append]
    refine List.Perm.cons s ?_
    have p1 : (t ++ (treeList (children s) ++ treeList (childrenAll t))).Perm
        ((treeList (children s) ++ t) ++ treeList (childrenAll t)) := by
      rw [← List.append_assoc]
      exact (List.perm_append_comm).append_right _
    have p2 : ((treeList (children s) ++ t) ++ treeList (childrenAll t)).Perm
        (treeList (children s) ++ treeList t) := by
      rw [List.append_assoc]
      exact ih.append_left _
    exact p1.trans p2

theorem walkL_perm_aux :
    ∀ n (l : List PyStmt), stmtsSize l ≤ n → (walkL l).Perm (treeList l) := by
  intro n
  induction n with
  | zero =>
    intro l h
    rw [stmtsSize_eq_zero (Nat.le_zero.mp h)]
    exact List.Perm.refl _
  | succ n ih =>
    intro l h
    cases l with
    | nil => exact List.Perm.refl _
    | cons s t =>
      rw [walkL_cons]
      have hsz := stmtsSize_childrenAll (s :: t)
      have hlen : 1 ≤ (s :: t).length := by simp
      have h3 : stmtsSize (s :: t) = stmtSize s + stmtsSize t := rfl
      have p1 : ((s :: t) ++ walkL (childrenAll (s :: t))).Perm
          ((s :: t) ++ treeList (childrenAll (s :: t))) :=
        (ih (childrenAll (s :: t)) (by omega)).append_left _
      exact p1.trans (level_perm_treeList (s :: t))

theorem walkL_perm_treeList (l : List PyStmt) : (walkL l).Perm (treeList l) :=
  walkL_perm_aux (stmtsSize l) l le_rfl

theorem length_filterMap_eq {α β : Type} (f : α → Option β) (l : List α) :
    (l.filterMap f).length = l.countP (fun x => (f x).isSome) := by
  induction l with
  | nil => rfl
  | cons x t ih =>
    cases hx : f x <;> simp [List.filterMap_cons, hx, List.countP_cons, ih]

theorem countP_split {α : Type} (p q : α → Bool) (l : List α) :
    l.countP p = l.countP (fun x => p x && q x) + l.countP (fun x => p x && !q x) := by
  induction l with
  | nil => rfl
  | cons x t ih =>
    cases hp : p x <;> cases hq : q x <;>
      simp [List.countP_cons, hp, hq, ih] <;> omega

theorem foldl_processNode_functions (tree : List PyStmt) (nodes : List PyStmt)
    (a : FileAnalysis) :
    (nodes.foldl (processNode tree) a).functions =
      a.functions ++ nodes.filterMap (fun n => match n with
        | .functionDef .. =>
          if is_method n tree then none else some (extract_function_info n)
        | _ => none) := by
  induction nodes generalizing a with
  | nil => simp
  | cons n t ih =>
    rw [List.foldl_cons, ih]
    cases n with
    | importStmt names => simp [processNode, List.filterMap_cons]
    | importFrom mo names => cases mo <;> simp [processNode, List.filterMap_cons]
    | functionDef nm args ret bd ln =>
      cases hm : is_method (PyStmt.functionDef nm args ret bd ln) tree <;>
        simp [processNode, hm, List.filterMap_cons]
    | classDef nm bs bd ln => simp [processNode, List.filterMap_cons]
    | exprConstStr s => simp [processNode, List.filterMap_cons]
    | other => simp [processNode, List.filterMap_cons]

theorem foldl_processNode_classes (tree : List PyStmt) (nodes : List PyStmt)
    (a : FileAnalysis) :
    (nodes.foldl (processNode tree) a).classes =
      a.classes ++ nodes.filterMap (fun n => match n with
        | .classDef .. => some (extract_class_info n)
        | _ => none) := by
  induction nodes generalizing a with
  | nil => simp
  | cons n t ih =>
    rw [List.foldl_cons, ih]
    cases n with
    | importStmt names => simp [processNode, List.filterMap_cons]
    | importFrom mo names => cases mo <;> simp [processNode, List.filterMap_cons]
    | functionDef nm args ret bd ln =>
      cases hm : is_method (PyStmt.functionDef nm args ret bd ln) tree <;>
        simp [processNode, hm, List.filterMap_cons]
    | classDef nm bs bd ln => simp [processNode, List.filterMap_cons]
    | exprConstStr s => simp [processNode, List.filterMap_cons]
    | other => simp [processNode, List.filterMap_cons]

theorem analyze_ast_functions (tree : List PyStmt) (a : FileAnalysis) (content : String) :
    (analyze_ast tree a content).functions =
      ((walkL tree).foldl (processNode tree) a).functions := by
  unfold analyze_ast
  dsimp only
  split <;> rfl

theorem analyze_ast_classes (tree : List PyStmt) (a : FileAnalysis) (content : String) :
    (analyze_ast tree a content).classes =
      ((walkL tree).foldl (processNode tree) a).classes := by
  unfold analyze_ast
  dsimp only
  split <;> rfl

theorem directMethodCount_eq_length (s : PyStmt) :
    directMethodCount s = (methodChildren s).length := by
  cases s <;> simp [directMethodCount, methodChildren, List.countP_eq_length_filter]

theorem methodDefCount_eq_length (m : List PyStmt) :
    methodDefCount m = ((treeList m).flatMap methodChildren).length := by
  unfold methodDefCount
  rw [List.length_flatMap]
  congr 1
  apply List.map_congr_left
  intro s _
  exact directMethodCount_eq_length s

/-- Being reported as a method by `_is_method` is, for a function
definition, the same as occurring as a direct function child of some class
node of the tree. -/
theorem is_method_iff_mem {n : PyStmt} (m : List PyStmt) (hfd : isFunDefB n = true) :
    is_method n m = true ↔ n ∈ (treeList m).flatMap methodChildren := by
  unfold is_method
  rw [List.any_eq_true]
  constructor
  · rintro ⟨p, hp, hP⟩
    have hp2 : p ∈ treeList m := (walkL_perm_treeList m).mem_iff.mp hp
    cases p with
    | classDef nm bs bd ln =>
      have hP2 : bd.any (fun x => beqStmt x n) = true := hP
      rw [List.any_eq_true] at hP2
      obtain ⟨x, hx, hbeq⟩ := hP2
      have hxn : x = n := beqStmt_sound x n hbeq
      subst hxn
      refine List.mem_flatMap.mpr ⟨PyStmt.classDef nm bs bd ln, hp2, ?_⟩
      simp only [methodChildren]
      exact List.mem_filter.mpr ⟨hx, hfd⟩
    | importStmt names => exact absurd hP (by simp)
    | importFrom mo names => exact absurd hP (by simp)
    | functionDef nm args ret bd ln => exact absurd hP (by simp)
    | exprConstStr s => exact absurd hP (by simp)
    | other => exact absurd hP (by simp)
  · intro hmc
    obtain ⟨c, hc, hn⟩ := List.mem_flatMap.mp hmc
    have hc2 : c ∈ walkL m := (walkL_perm_treeList m).mem_iff.mpr hc
    refine ⟨c, hc2, ?_⟩
    cases c with
    | classDef nm bs bd ln =>
      have hn2 : n ∈ bd.filter isFunDefB := hn
      show bd.any (fun x => beqStmt x n) = true
      rw [List.any_eq_true]
      exact ⟨n, (List.mem_filter.mp hn2).1, beqStmt_refl n⟩
    | importStmt names => exact absurd hn (by simp [methodChildren])
    | importFrom mo names => exact absurd hn (by simp [methodChildren])
    | functionDef nm args ret bd ln => exact absurd hn (by simp [methodChildren])
    | exprConstStr s => exact absurd hn (by simp [methodChildren])
    | other => exact absurd hn (by simp [methodChildren])

/-- Occurrence-counting bound: the direct method children of the classes of
a forest, together with the forest's root-level function definitions,
inject into all function-definition occurrences of the forest. -/
theorem method_count_le :
    ∀ k (l : List PyStmt), stmtsSize l ≤ k → ∀ x : PyStmt,
      ((treeList l).flatMap methodChildren).count x + (l.filter isFunDefB).count x ≤
        ((treeList l).filter isFunDefB).count x := by
  intro k
  induction k with
  | zero =>
    intro l h x
    rw [stmtsSize_eq_zero (Nat.le_zero.mp h)]
    simp [treeList_nil]
  | succ k ih =>
    intro l h x
    cases l with
    | nil => simp [treeList_nil]
    | cons s t =>
      rw [treeList_cons]
      have h3 : stmtsSize (s :: t) = stmtSize s + stmtsSize t := rfl
      have h2 := stmtSize_children s
      have h1 := stmtSize_pos s
      have iht := ih t (by omega) x
      cases s with
      | classDef nm bs bd ln =>
        have ihc := ih (children (PyStmt.classDef nm bs bd ln)) (by omega) x
        simp only [children] at ihc
        simp only [List.flatMap_cons, List.flatMap_append, List.count_append,
          List.filter_cons, List.filter_append, methodChildren, isFunDefB,
          children, Bool.false_eq_true, if_false, reduceIte, List.count_append]
        omega
      | functionDef nm args ret bd ln =>
        have ihc := ih (children (PyStmt.functionDef nm args ret bd ln)) (by omega) x
        simp only [children] at ihc
        simp only [List.flatMap_cons, List.flatMap_append, List.count_append,
          List.filter_cons, List.filter_append, methodChildren, isFunDefB,
          children, if_true, reduceIte, List.count_cons, List.count_append,
          List.count_nil, List.flatMap_nil, List.nil_append]
        omega
      | importStmt names =>
        simp only [List.flatMap_cons, List.flatMap_append, List.count_append,
          List.filter_cons, List.filter_append, methodChildren, isFunDefB, children,
          treeList_nil, Bool.false_eq_true, if_false, reduceIte,
          List.count_nil, List.flatMap_nil, List.nil_append, List.filter_nil]
        omega
      | importFrom mo names =>
        simp only [List.flatMap_cons, List.flatMap_append, List.count_append,
          List.filter_cons, List.filter_append, methodChildren, isFunDefB, children,
          treeList_nil, Bool.false_eq_true, if_false, reduceIte,
          List.count_nil, List.flatMap_nil, List.nil_append, List.filter_nil]
        omega
      | exprConstStr s =>
        simp only [List.flatMap_cons, List.flatMap_append, List.count_append,
          List.filter_cons, List.filter_append, methodChildren, isFunDefB, children,
          treeList_nil, Bool.false_eq_true, if_false, reduceIte,
          List.count_nil, List.flatMap_nil, List.nil_append, List.filter_nil]
        omega
      | other =>
        simp only [List.flatMap_cons, List.flatMap_append, List.count_append,
          List.filter_cons, List.filter_append, methodChildren, isFunDefB, children,
          treeList_nil, Bool.false_eq_true, if_false, reduceIte,
          List.count_nil, List.flatMap_nil, List.nil_append, List.filter_nil]
        omega

theorem funDefLinenos_eq (l : List PyStmt) :
    l.filterMap (fun s => match s with | .functionDef _ _ _ _ ln => some ln | _ => none) =
      (l.filter isFunDefB).map (fun s => match s with
        | .functionDef _ _ _ _ ln => ln
        | _ => 0) := by
  induction l with
  | nil => rfl
  | cons s t ih => cases s <;> simp [List.filterMap_cons, List.filter_cons, isFunDefB, ih]

theorem treeFilter_nodup (m : List PyStmt) (hnd : (funDefLinenos m).Nodup) :
    ((treeList m).filter isFunDefB).Nodup := by
  unfold funDefLinenos at hnd
  rw [funDefLinenos_eq] at hnd
  exact hnd.of_map _

/-- Under distinct function-definition line numbers, the number of
function-definition occurrences classified as methods equals the total
count of direct class-body function definitions. -/
theorem method_countP_eq (m : List PyStmt) (hnd : (funDefLinenos m).Nodup) :
    (treeList m).countP (fun n => isFunDefB n && is_method n m) = methodDefCount m := by
  classical
  have hFnd : ((treeList m).filter isFunDefB).Nodup := treeFilter_nodup m hnd
  have hcnt : ∀ x, ((treeList m).flatMap methodChildren).count x ≤
      ((treeList m).filter isFunDefB).count x := by
    intro x
    have := method_count_le (stmtsSize m) m le_rfl x
    omega
  have hMCnd : ((treeList m).flatMap methodChildren).Nodup := by
    rw [List.nodup_iff_count_le_one] at hFnd ⊢
    intro a
    exact le_trans (hcnt a) (hFnd a)
  have hsub : ∀ x ∈ (treeList m).flatMap methodChildren,
      x ∈ (treeList m).filter isFunDefB := by
    intro x hx
    have h1 : 0 < ((treeList m).flatMap methodChildren).count x :=
      List.count_pos_iff.mpr hx
    exact List.count_pos_iff.mp (lt_of_lt_of_le h1 (hcnt x))
  have hmcfd : ∀ x ∈ (treeList m).flatMap methodChildren, isFunDefB x = true := by
    intro x hx
    exact (List.mem_filter.mp (hsub x hx)).2
  have hpt : (treeList m).countP (fun n => isFunDefB n && is_method n m) =
      (treeList m).countP (fun n => decide (n ∈ (treeList m).flatMap methodChildren)) := by
    apply List.countP_congr
    intro n _
    by_cases hfd : isFunDefB n = true
    · have hiff := is_method_iff_mem m hfd
      by_cases hmem : n ∈ (treeList m).flatMap methodChildren
      · simp [hfd, hiff.mpr hmem, hmem]
      · have : ¬ is_method n m = true := fun hm => hmem (hiff.mp hm)
        simp [hfd, hmem, this]
    · have hfd2 : isFunDefB n = false := by simpa using hfd
      have hnm : n ∉ (treeList m).flatMap methodChildren := fun hmem => hfd (hmcfd n hmem)
      simp [hfd2, hnm]
  have h2 : (treeList m).countP (fun n => decide (n ∈ (treeList m).flatMap methodChildren)) =
      ((treeList m).filter isFunDefB).countP
        (fun n => decide (n ∈ (treeList m).flatMap methodChildren)) := by
    rw [List.countP_filter]
    apply List.countP_congr
    intro n _
    by_cases hmem : n ∈ (treeList m).flatMap methodChildren
    · simp [hmem, hmcfd n hmem]
    · simp [hmem]
  have h3 : ((treeList m).filter isFunDefB).countP
        (fun n => decide (n ∈ (treeList m).flatMap methodChildren)) =
      (((treeList m).filter isFunDefB).filter
        (fun n => decide (n ∈ (treeList m).flatMap methodChildren))).length :=
    List.countP_eq_length_filter _ _
  have hmemiff : ∀ x, x ∈ ((treeList m).filter isFunDefB).filter
        (fun n => decide (n ∈ (treeList m).flatMap methodChildren)) ↔
      x ∈ (treeList m).flatMap methodChildren := by
    intro x
    rw [List.mem_filter]
    constructor
    · rintro ⟨_, hx⟩
      exact of_decide_eq_true hx
    · intro hx
      exact ⟨hsub x hx, decide_eq_true hx⟩
  have hndf : (((treeList m).filter isFunDefB).filter
      (fun n => decide (n ∈ (treeList m).flatMap methodChildren))).Nodup :=
    hFnd.filter _
  have hlen : (((treeList m).filter isFunDefB).filter
        (fun n => decide (n ∈ (treeList m).flatMap methodChildren))).length =
      ((treeList m).flatMap methodChildren).length := by
    rw [← List.toFinset_card_of_nodup hndf, ← List.toFinset_card_of_nodup hMCnd]
    congr 1
    ext x
    simp only [List.mem_toFinset]
    exact hmemiff x
  rw [hpt, h2, h3, hlen, methodDefCount_eq_length]

theorem efiOpt_isSome (tree : List PyStmt) (n : PyStmt) :
    (match n with
      | PyStmt.functionDef nm args ret bd ln =>
        if is_method n tree then none
        else some (extract_function_info n)
      | _ => (none : Option FunctionInfo)).isSome =
      (isFunDefB n && !is_method n tree) := by
  cases n <;> simp [isFunDefB]
  case functionDef nm args ret bd ln =>
    cases hm : is_method (PyStmt.functionDef nm args ret bd ln) tree <;> simp [hm]

theorem sum_methods_filterMap (l : List PyStmt) :
    ((l.filterMap (fun n => match n with
        | PyStmt.classDef .. => some (extract_class_info n)
        | _ => none)).map (fun c => c.methods.length)).sum =
      (l.map directMethodCount).sum := by
  induction l with
  | nil => rfl
  | cons s t ih =>
    cases s with
    | classDef nm bs bd ln =>
      simp only [List.filterMap_cons, List.map_cons, List.sum_cons, ih,
        directMethodCount, extract_class_info]
      congr 1
      rw [length_filterMap_eq]
      apply List.countP_congr
      intro n _
      cases n <;> simp [isFunDefB]
    | importStmt names => simp [List.filterMap_cons, directMethodCount, ih]
    | importFrom mo names => simp [List.filterMap_cons, directMethodCount, ih]
    | functionDef nm args ret bd ln => simp [List.filterMap_cons, directMethodCount, ih]
    | exprConstStr s => simp [List.filterMap_cons, directMethodCount, ih]
    | other => simp [List.filterMap_cons, directMethodCount, ih]

/-! ## Claim C2 -/

/-- Claim C2, counterexample: a module with N = 1 top-level function, M = 0
classes and K = 0 method definitions, whose single function contains a
nested function definition.  `ast.walk` reaches the nested definition,
`_is_method` rejects it (it is not directly inside any class body), so the
`functions` list has length 2, not N = 1. -/
theorem c2_counterexample :
    topLevelFunCount nestedTree = 1 ∧
    classDefCount nestedTree = 0 ∧
    methodDefCount nestedTree = 0 ∧
    (PythonAnalyzer_analyze (fun _ => Except.ok nestedTree) nestedSrc "t.py").functions.length = 2 := by
  decide

/-- Claim C2 as amended: for every parsed module (whose
function-definition line numbers are pairwise distinct, as in any real
parse — the regime where structural equality coincides with Python's
identity-based `node in parent.body`), the `functions` list receives every
function definition of the AST walk that is not directly inside a class
body, nested ones included: its length plus the number of direct
class-body function definitions (K) equals the total number of function
definitions, and the sum of `methods` lengths across all classes equals
K.  On modules without function definitions nested inside functions this
gives exactly the original claim. -/
theorem c2_amended (parse : String → Except String (List PyStmt)) (m : List PyStmt)
    (content filepath : String)
    (hp : parse content = Except.ok m)
    (hnd : (funDefLinenos m).Nodup) :
    (PythonAnalyzer_analyze parse content filepath).functions.length + methodDefCount m =
      funDefCount m ∧
    (((PythonAnalyzer_analyze parse content filepath).classes.map
      (fun c => c.methods.length)).sum = methodDefCount m) := by
  unfold PythonAnalyzer_analyze
  rw [hp]
  constructor
  · rw [analyze_ast_functions, foldl_processNode_functions]
    have hfresh : (freshAnalysis filepath "Python").functions = [] := rfl
    rw [hfresh, List.nil_append, length_filterMap_eq]
    have hcong : (walkL m).countP (fun n => (match n with
        | PyStmt.functionDef .. =>
          if is_method n m then none else some (extract_function_info n)
        | _ => (none : Option FunctionInfo)).isSome) =
        (walkL m).countP (fun n => isFunDefB n && !is_method n m) := by
      apply List.countP_congr
      intro n _
      rw [efiOpt_isSome m n]
    rw [hcong, (walkL_perm_treeList m).countP_eq]
    have hsplit := countP_split isFunDefB (fun n => is_method n m) (treeList m)
    have hcrux := method_countP_eq m hnd
    unfold funDefCount
    omega
  · rw [analyze_ast_classes, foldl_processNode_classes]
    have hfresh : (freshAnalysis filepath "Python").classes = [] := rfl
    rw [hfresh, List.nil_append, sum_methods_filterMap]
    have hperm := ((walkL_perm_treeList m).map directMethodCount).sum_eq
    rw [hperm]
    rfl

/-- Claim C2, witness: one top-level function and one class with one
method — functions length 1 + K = total 2, and the methods sum is K = 1. -/
theorem c2_amended_witness :
    ((PythonAnalyzer_analyze (fun _ => Except.ok mixedTree) mixedSrc "t.py").functions.length +
        methodDefCount mixedTree = funDefCount mixedTree) ∧
    (((PythonAnalyzer_analyze (fun _ => Except.ok mixedTree) mixedSrc "t.py").classes.map
      (fun c => c.methods.length)).sum = methodDefCount mixedTree) :=
  c2_amended (fun _ => Except.ok mixedTree) mixedTree mixedSrc "t.py" rfl (by decide)
